import Mathlib

/-!
# Verification of the NSE stock-picker scoring and gating engine

A shallow embedding of `nse_stock_picker_pro.py` and of the screener handler in
`streamlit_app.py`.  Daily bars are modelled with exact rationals; a missing /
undefined numeric value (a `NaN` produced by pandas warm-up windows or by a
`0/0` division under suppressed numpy warnings) is modelled as `Option.none`,
and every comparison against an undefined value is `false`, exactly as IEEE
`NaN` comparisons evaluate in the Python code.  The indicator computations the
script delegates to the external `ta` library (EMA, MACD, RSI, ATR, ADX,
Bollinger bands) are embedded per the specification's "standard
technical-analysis definitions" together with the pandas warm-up masking
(leading positions undefined until the indicator's window is satisfied).

Arithmetic on ℚ is written through `mkRat`-based wrappers (`qadd`, `qsub`,
`qmul`, `qdiv`) that the kernel can evaluate on concrete inputs; the bridge
lemmas `qadd_eq`, `qsub_eq`, `qmul_eq`, `qdiv_eq` below prove them equal to
the field operations of ℚ, so the embedding computes exactly the rational
arithmetic the source performs.
-/

set_option maxRecDepth 20000

namespace NSE

/-! ## Kernel-evaluable rational arithmetic and its bridge to the ℚ field -/

/-- Addition on ℚ through `mkRat` (kernel-evaluable); equals `a + b`. -/
def qadd (a b : ℚ) : ℚ := mkRat (a.num * b.den + b.num * a.den) (a.den * b.den)

/-- Subtraction on ℚ through `mkRat`; equals `a - b`. -/
def qsub (a b : ℚ) : ℚ := mkRat (a.num * b.den - b.num * a.den) (a.den * b.den)

/-- Multiplication on ℚ through `mkRat`; equals `a * b`. -/
def qmul (a b : ℚ) : ℚ := mkRat (a.num * b.num) (a.den * b.den)

/-- Division on ℚ through `mkRat`; equals `a / b` (with `a / 0 = 0`). -/
def qdiv (a b : ℚ) : ℚ :=
  if b.num < 0 then mkRat (-(a.num * b.den)) (a.den * b.num.natAbs)
  else mkRat (a.num * b.den) (a.den * b.num.natAbs)

theorem qadd_eq (a b : ℚ) : qadd a b = a + b := by
  conv_rhs => rw [← Rat.num_divInt_den a, ← Rat.num_divInt_den b]
  rw [Rat.divInt_add_divInt _ _ (Int.natCast_ne_zero.mpr a.den_nz)
    (Int.natCast_ne_zero.mpr b.den_nz), qadd, Rat.mkRat_eq_divInt]
  push_cast
  rfl

theorem qsub_eq (a b : ℚ) : qsub a b = a - b := by
  conv_rhs => rw [← Rat.num_divInt_den a, ← Rat.num_divInt_den b]
  rw [Rat.divInt_sub_divInt _ _ (Int.natCast_ne_zero.mpr a.den_nz)
    (Int.natCast_ne_zero.mpr b.den_nz), qsub, Rat.mkRat_eq_divInt]
  push_cast
  rfl

theorem qmul_eq (a b : ℚ) : qmul a b = a * b := by
  conv_rhs => rw [← Rat.num_divInt_den a, ← Rat.num_divInt_den b]
  rw [Rat.divInt_mul_divInt', qmul, Rat.mkRat_eq_divInt]
  push_cast
  rfl

theorem qdiv_eq (a b : ℚ) : qdiv a b = a / b := by
  rw [Rat.div_def']
  by_cases hb : b.num < 0
  · rw [qdiv, if_pos hb, Rat.mkRat_eq_divInt,
      show ((a.den * b.num.natAbs : ℕ) : ℤ) = -((a.den : ℤ) * b.num) by
        push_cast; rw [abs_of_neg hb]; ring,
      Rat.neg_divInt_neg]
  · rw [qdiv, if_neg hb, Rat.mkRat_eq_divInt,
      show ((a.den * b.num.natAbs : ℕ) : ℤ) = (a.den : ℤ) * b.num by
        push_cast; rw [abs_of_nonneg (not_lt.mp hb)]]

/-- Sum of a list of rationals, kernel-evaluable. -/
def qsum (l : List ℚ) : ℚ := l.foldl qadd 0

/-- Maximum of two rationals, written with an explicit `if` so that kernel
reduction is immediate. -/
def qmax (a b : ℚ) : ℚ := if a ≤ b then b else a

/-- Absolute value on ℚ, kernel-reducible. -/
def qabs (a : ℚ) : ℚ := if a < 0 then qsub 0 a else a

/-- Division that models numpy semantics for the purposes of this pipeline:
a zero denominator yields an undefined value (`0/0 → NaN`, `x/0 → ±inf`; both
compare as `false` downstream, which `none` reproduces). -/
def safeDiv (a b : ℚ) : Option ℚ := if b = 0 then none else some (qdiv a b)

/-- Round-half-even on the integer grid (Python's `round`). -/
def rhe (q : ℚ) : ℤ :=
  let f : ℤ := Int.fdiv q.num q.den
  let r : ℚ := qsub q (mkRat f 1)
  if r < mkRat 1 2 then f
  else if mkRat 1 2 < r then f + 1
  else if f % 2 = 0 then f else f + 1

/-- Python's `round(q, d)`: banker's rounding to `d` decimal places, idealised
over the exact rational value. -/
def roundTo (d : ℕ) (q : ℚ) : ℚ :=
  qdiv (mkRat (rhe (qmul q (mkRat ((10:ℤ) ^ d) 1))) 1) (mkRat ((10:ℤ) ^ d) 1)

/-- Comparison `x > y` on possibly-undefined values: any comparison involving an
undefined (`NaN`) operand is false, as in the Python code. -/
def oGT (x y : Option ℚ) : Bool :=
  match x, y with
  | some a, some b => decide (b < a)
  | _, _ => false

/-- Comparison `x ≥ y` on possibly-undefined values (false when either is undefined). -/
def oGE (x y : Option ℚ) : Bool :=
  match x, y with
  | some a, some b => decide (b ≤ a)
  | _, _ => false

/-- Comparison `x ≤ m` for a possibly-undefined `x` against a defined bound; undefined
compares false (this is the `res["RR"] <= MAX_RR` test when RR is NaN). -/
def oLE (x : Option ℚ) (m : ℚ) : Bool :=
  match x with
  | some a => decide (a ≤ m)
  | none => false

/-- Comparison `x < m` for a possibly-undefined `x` against a defined bound; an
undefined (or infinite, from division by a zero close) ratio compares false. -/
def oLT (x : Option ℚ) (m : ℚ) : Bool :=
  match x with
  | some a => decide (a < m)
  | none => false

/-! ## Configuration constants (the CONFIG block of the script) -/

def ADX_THRESH : ℚ := 20
def VOL_MULT : ℚ := mkRat 3 2
def BB_SQUEEZE_PCT : ℚ := mkRat 1 2
def ATR_STOP_MULT : ℚ := 1
def ATR_TGT_MULT : ℚ := 2
def MAX_RR : ℚ := mkRat 3 5
def MIN_SCORE : ℕ := 6
def TOP_N : ℕ := 5

/-! ## Data model: raw fetched bars and cleaned bars -/

/-- One raw daily row as returned by the market-data fetch
(`auto_adjust=False` gives columns Open, High, Low, Close, Adj Close,
Volume); any field may be missing (NaN). -/
structure RawBar where
  open' : Option ℚ
  high' : Option ℚ
  low' : Option ℚ
  close' : Option ℚ
  adj' : Option ℚ
  volume' : Option ℚ
deriving DecidableEq, Repr

/-- One cleaned bar: a row every field of which was present.  Only the four
columns the pipeline consumes are retained. -/
structure Bar where
  high : ℚ
  low : ℚ
  close : ℚ
  volume : ℚ
deriving DecidableEq, Repr

instance : Inhabited Bar := ⟨⟨0, 0, 0, 0⟩⟩

/-- Embeds `df.dropna()`: keep exactly the rows with no missing field. -/
def dropna (rows : List RawBar) : List Bar :=
  rows.filterMap fun b =>
    match b.open', b.high', b.low', b.close', b.adj', b.volume' with
    | some _, some h, some l, some c, some _, some v => some ⟨h, l, c, v⟩
    | _, _, _, _, _, _ => none

/-! ## Per-column accessors (pandas positional indexing on the cleaned frame) -/

def closeAt (bars : List Bar) (i : ℕ) : ℚ := (bars.getD i default).close
def highAt (bars : List Bar) (i : ℕ) : ℚ := (bars.getD i default).high
def lowAt (bars : List Bar) (i : ℕ) : ℚ := (bars.getD i default).low
def volAt (bars : List Bar) (i : ℕ) : ℚ := (bars.getD i default).volume

/-! ## Indicator engine

Embeds the indicator series consumed by `analyze`, per spec §4.1, aligned
1:1 with the cleaned series by index; `none` marks a warm-up position. -/

/-- Pandas `ewm(adjust=False)` recursion: `y₀ = v 0`, `yᵢ = α·vᵢ + (1-α)·yᵢ₋₁`. -/
def ewmF (α : ℚ) (v : ℕ → ℚ) : ℕ → ℚ
  | 0 => v 0
  | i + 1 => qadd (qmul α (v (i + 1))) (qmul (qsub 1 α) (ewmF α v i))

/-- Exponential moving average with span `w` (`α = 2/(w+1)`), output masked
for the first `w - 1` positions (`min_periods = w`). -/
def emaF (w : ℕ) (v : ℕ → ℚ) (i : ℕ) : Option ℚ :=
  if i + 1 < w then none else some (ewmF (mkRat 2 (w + 1)) v i)

/-- MACD line: EMA12 − EMA26 of close, undefined until both are (index ≥ 25). -/
def macdLineF (v : ℕ → ℚ) (i : ℕ) : Option ℚ :=
  if i < 25 then none
  else some (qsub (ewmF (mkRat 2 13) v i) (ewmF (mkRat 2 27) v i))

/-- MACD signal line: a 9-span EMA of the MACD line.  The MACD line is
undefined exactly on indices `< 25`; pandas' `ewm` starts its recursion at
the first defined value (index 25) and masks until nine defined observations
have been seen (index ≥ 33). -/
def macdSignalF (v : ℕ → ℚ) (i : ℕ) : Option ℚ :=
  if i < 33 then none
  else some (ewmF (mkRat 2 10)
    (fun k => qsub (ewmF (mkRat 2 13) v (25 + k)) (ewmF (mkRat 2 27) v (25 + k))) (i - 25))

/-- Upward close-to-close move (`diff.where(diff > 0, 0.0)`; the leading NaN
diff becomes 0 because `NaN > 0` is false). -/
def upMove (bars : List Bar) (i : ℕ) : ℚ :=
  if i = 0 then 0 else qmax (qsub (closeAt bars i) (closeAt bars (i - 1))) 0

/-- Downward close-to-close move (`-diff.where(diff < 0, 0.0)`). -/
def dnMove (bars : List Bar) (i : ℕ) : ℚ :=
  if i = 0 then 0 else qmax (qsub (closeAt bars (i - 1)) (closeAt bars i)) 0

/-- The 14-period RSI: Wilder-smoothed (`α = 1/14`) average gain and loss,
`RSI = 100 − 100/(1 + RS)` with the implementation's special case
`RSI = 100` when the average loss is zero; masked for the first 13 bars. -/
def rsiF (bars : List Bar) (i : ℕ) : Option ℚ :=
  if i < 13 then none
  else
    let up := ewmF (mkRat 1 14) (upMove bars) i
    let dn := ewmF (mkRat 1 14) (dnMove bars) i
    if dn = 0 then some 100
    else some (qsub 100 (qdiv 100 (qadd 1 (qdiv up dn))))

/-- True range: `max(high−low, |high−prev close|, |low−prev close|)`; at
index 0 the previous close is missing and the skipna max leaves `high−low`. -/
def trAt (bars : List Bar) (i : ℕ) : ℚ :=
  if i = 0 then qsub (highAt bars 0) (lowAt bars 0)
  else qmax (qsub (highAt bars i) (lowAt bars i))
        (qmax (qabs (qsub (highAt bars i) (closeAt bars (i - 1))))
              (qabs (qsub (lowAt bars i) (closeAt bars (i - 1)))))

/-- The 14-period average true range, Wilder smoothing: zero during warm-up
(the implementation keeps literal zeros there), seeded at index 13 with the
mean of the first fourteen true ranges. -/
def atrF (tr : ℕ → ℚ) : ℕ → ℚ
  | 0 => 0
  | i + 1 =>
    if i + 1 < 13 then 0
    else if i + 1 = 13 then qdiv (qsum ((List.range 14).map tr)) 14
    else qdiv (qadd (qmul (atrF tr i) 13) (tr (i + 1))) 14

/-! ### ADX (modelled from the spec)

Modelled from the spec: §4.1 prescribes the "standard 14-period" Average
Directional Index; the repository delegates the computation to the external
`ta` library, whose internals are not part of the repository's sources.  We
embed the standard Wilder construction: smoothed directional movements and
true range, directional indices `DI± = 100·DM±/TR`, `DX = 100·|DI⁺−DI⁻| /
(DI⁺+DI⁻)`, and ADX as the Wilder-smoothed DX (seeded with the mean of the
first fourteen DX values).  A zero denominator makes the value undefined
(numpy NaN), and undefinedness propagates through the smoothing. -/

/-- Positive directional movement at a bar. -/
def posDM (bars : List Bar) (i : ℕ) : ℚ :=
  if i = 0 then 0
  else
    let du := qsub (highAt bars i) (highAt bars (i - 1))
    let dd := qsub (lowAt bars (i - 1)) (lowAt bars i)
    if dd < du ∧ 0 < du then du else 0

/-- Negative directional movement at a bar. -/
def negDM (bars : List Bar) (i : ℕ) : ℚ :=
  if i = 0 then 0
  else
    let du := qsub (highAt bars i) (highAt bars (i - 1))
    let dd := qsub (lowAt bars (i - 1)) (lowAt bars i)
    if du < dd ∧ 0 < dd then dd else 0

/-- Wilder running sum: seeded at index 13 with the plain sum of the first
fourteen values, then `sᵢ = sᵢ₋₁ − sᵢ₋₁/14 + vᵢ`. -/
def wilderSum (v : ℕ → ℚ) : ℕ → ℚ
  | 0 => 0
  | i + 1 =>
    if i + 1 < 13 then 0
    else if i + 1 = 13 then qsum ((List.range 14).map v)
    else qadd (qsub (wilderSum v i) (qdiv (wilderSum v i) 14)) (v (i + 1))

/-- Directional index DI⁺ (undefined when the smoothed true range is zero). -/
def diPlus (bars : List Bar) (i : ℕ) : Option ℚ :=
  safeDiv (qmul 100 (wilderSum (posDM bars) i)) (wilderSum (trAt bars) i)

/-- Directional index DI⁻. -/
def diMinus (bars : List Bar) (i : ℕ) : Option ℚ :=
  safeDiv (qmul 100 (wilderSum (negDM bars) i)) (wilderSum (trAt bars) i)

/-- DX at a bar, undefined when either DI is undefined or their sum is zero. -/
def dxF (bars : List Bar) (i : ℕ) : Option ℚ :=
  match diPlus bars i, diMinus bars i with
  | some p, some n => safeDiv (qmul 100 (qabs (qsub p n))) (qadd p n)
  | _, _ => none

/-- Sum of the first fourteen DX values (indices 13–26), undefined if any is. -/
def dxSeed (bars : List Bar) : Option ℚ :=
  (List.range 14).foldl
    (fun acc k =>
      match acc, dxF bars (13 + k) with
      | some a, some d => some (qadd a d)
      | _, _ => none) (some 0)

/-- The 14-period ADX, defined from index 27 on. -/
def adxF (bars : List Bar) : ℕ → Option ℚ
  | 0 => none
  | i + 1 =>
    if i + 1 < 27 then none
    else if i + 1 = 27 then (dxSeed bars).map (fun s => qdiv s 14)
    else
      match adxF bars i, dxF bars (i + 1) with
      | some p, some d => some (qdiv (qadd (qmul p 13) d) 14)
      | _, _ => none

/-! ### Rolling-window statistics (pandas `rolling`, `min_periods = window`) -/

/-- Rolling mean over a `w`-bar window of a defined series: undefined until
the window is full. -/
def rollMeanF (w : ℕ) (v : ℕ → ℚ) (i : ℕ) : Option ℚ :=
  if i + 1 < w then none
  else some (qdiv (qsum ((List.range w).map fun k => v (i + 1 - w + k))) (mkRat w 1))

/-- Rolling maximum over a `w`-bar window: undefined until the window is full. -/
def rollMaxF (w : ℕ) (v : ℕ → ℚ) (i : ℕ) : Option ℚ :=
  if i + 1 < w then none
  else some (((List.range w).map fun k => v (i + 1 - w + k)).foldl qmax (v (i + 1 - w)))

/-- Rolling mean over a `w`-bar window of a possibly-undefined series:
undefined until the window is full and every position in it is defined
(pandas counts only non-NaN observations against `min_periods`). -/
def rollMeanOptF (w : ℕ) (s : ℕ → Option ℚ) (i : ℕ) : Option ℚ :=
  if i + 1 < w then none
  else if ((List.range w).all fun k => (s (i + 1 - w + k)).isSome) then
    some (qdiv (qsum ((List.range w).map fun k => (s (i + 1 - w + k)).getD 0)) (mkRat w 1))
  else none

/-! ### Bollinger bands (spec §4.1: 20-period SMA ± 2 population std) -/

/-- Stand-in for the real square root used by the band computation: exact on
perfect-square rationals.  No claim in this development depends on a band
value at a non-perfect-square variance (every consumed occurrence sits under
an undefined 120-bar rolling mean and is never forced), but the function must
be total and executable. -/
def ratSqrt (q : ℚ) : ℚ :=
  if q ≤ 0 then 0 else mkRat (Nat.sqrt q.num.toNat : ℤ) (Nat.sqrt q.den)

/-- The 20-period rolling population variance of the close. -/
def bbVarF (bars : List Bar) (i : ℕ) : Option ℚ :=
  match rollMeanF 20 (closeAt bars) i with
  | none => none
  | some m =>
    some (qdiv (qsum ((List.range 20).map fun k =>
      qmul (qsub (closeAt bars (i + 1 - 20 + k)) m) (qsub (closeAt bars (i + 1 - 20 + k)) m))) 20)

/-- The 20-period moving average of close (the Bollinger middle band). -/
def bbMavgF (bars : List Bar) (i : ℕ) : Option ℚ := rollMeanF 20 (closeAt bars) i

/-- Rolling population standard deviation (`std(ddof=0)`). -/
def bbStdF (bars : List Bar) (i : ℕ) : Option ℚ := (bbVarF bars i).map ratSqrt

/-- Bollinger band width `(hband − lband) / mavg`, as computed in `analyze`;
undefined during the 19-bar warm-up of the bands and when the middle band is
zero. -/
def bbWidthF (bars : List Bar) (i : ℕ) : Option ℚ :=
  match bbMavgF bars i, bbStdF bars i with
  | some m, some s => safeDiv (qsub (qadd m (qmul 2 s)) (qsub m (qmul 2 s))) m
  | _, _ => none

/-! ## Signal flag deriver (spec §4.2; lines 70–84 of the script)

Each flag evaluates the indicator series at the latest index
`t = len(df) - 1` (and, for the RSI midline cross, at `t − 1`). -/

/-- Flag `close_above_ema20`: `close[t] > ema20[t]`. -/
def f_close_above_ema20 (bars : List Bar) : Bool :=
  let t := bars.length - 1
  oGT (some (closeAt bars t)) (emaF 20 (closeAt bars) t)

/-- Flag `macd_bullish_cross`: `macd_line[t] > macd_signal[t]`. -/
def f_macd_line_cross_up (bars : List Bar) : Bool :=
  let t := bars.length - 1
  oGT (macdLineF (closeAt bars) t) (macdSignalF (closeAt bars) t)

/-- Flag `rsi_neutral_band`: `45 < rsi[t] < 65` (the chained comparison inside the score sum). -/
def f_rsi_neutral_band (bars : List Bar) : Bool :=
  let t := bars.length - 1
  match rsiF bars t with
  | some r => decide (45 < r) && decide (r < 65)
  | none => false

/-- Flag `volume_surge`: `volume[t] > 1.5 × rolling-20 mean of volume at t`. -/
def f_volume_surge (bars : List Bar) : Bool :=
  let t := bars.length - 1
  oGT (some (volAt bars t)) ((rollMeanF 20 (volAt bars) t).map (fun m => qmul VOL_MULT m))

/-- Flag `rsi_midline_cross`: `rsi[t-1] < 50 and rsi[t] > 50`. -/
def f_rsi_mid_cross (bars : List Bar) : Bool :=
  let t := bars.length - 1
  match rsiF bars (t - 1), rsiF bars t with
  | some a, some b => decide (a < 50) && decide (50 < b)
  | _, _ => false

/-- Flag `adx_trending`: `adx[t] > 20`. -/
def f_adx_trending (bars : List Bar) : Bool :=
  let t := bars.length - 1
  oGT (adxF bars t) (some ADX_THRESH)

/-- Flag `bb_squeeze_breakout`: `bb_width[t] > 0.5 × rolling-120 mean of bb_width at t`. -/
def f_bb_squeeze_break (bars : List Bar) : Bool :=
  let t := bars.length - 1
  match bbWidthF bars t, rollMeanOptF 120 (bbWidthF bars) t with
  | some w, some m => decide (qmul BB_SQUEEZE_PCT m < w)
  | _, _ => false

/-- Price within 1% of EMA20 and EMA50 and 1.5% of EMA100 at t. -/
def f_price_near_ema_cluster (bars : List Bar) : Bool :=
  let t := bars.length - 1
  let cl := closeAt bars t
  match emaF 20 (closeAt bars) t, emaF 50 (closeAt bars) t, emaF 100 (closeAt bars) t with
  | some a, some b, some c =>
    oLT (safeDiv (qabs (qsub cl a)) cl) (mkRat 1 100) &&
      oLT (safeDiv (qabs (qsub cl b)) cl) (mkRat 1 100) &&
      oLT (safeDiv (qabs (qsub cl c)) cl) (mkRat 3 200)
  | _, _, _ => false

/-- Flag `breakout_20d_high`: `close[t] ≥ rolling-20 max of close at t`. -/
def f_breakout_20d_high (bars : List Bar) : Bool :=
  let t := bars.length - 1
  oGE (some (closeAt bars t)) (rollMaxF 20 (closeAt bars) t)

/-- Flag `momentum_5d`: `close[t] > close[t-5]` (`close.shift(5)` is NaN while `t < 5`). -/
def f_5d_momentum (bars : List Bar) : Bool :=
  let t := bars.length - 1
  if t < 5 then false else decide (closeAt bars (t - 5) < closeAt bars t)

/-- The ten §4.2 flags, in the order of the `sum([...])` in the script. -/
def signalFlags (bars : List Bar) : List Bool :=
  [ f_close_above_ema20 bars
  , f_macd_line_cross_up bars
  , f_rsi_neutral_band bars
  , f_volume_surge bars
  , f_5d_momentum bars
  , f_adx_trending bars
  , f_bb_squeeze_break bars
  , f_rsi_mid_cross bars
  , f_price_near_ema_cluster bars
  , f_breakout_20d_high bars ]

/-- The scorer: `score = sum` of the ten booleans (spec §4.3). -/
def scoreOf (bars : List Bar) : ℕ := (signalFlags bars).count true

/-! ## Candidate and `analyze` -/

/-- The per-symbol value object returned by `analyze` (the Python dict).
`rr`, `rsi` and `adx` may be undefined (NaN). -/
structure Candidate where
  ticker : String
  price : ℚ
  score : ℕ
  rr : Option ℚ
  target : ℚ
  stop : ℚ
  rsi : Option ℚ
  adx : Option ℚ
  volSurge : Bool
deriving DecidableEq, Repr

/-- Embeds `ticker.replace(".NS", "")` on the underlying character list: left-to-right
replacement of every (non-overlapping) occurrence of `".NS"`. -/
def replaceNS : List Char → List Char
  | [] => []
  | '.' :: 'N' :: 'S' :: rest => replaceNS rest
  | c :: rest => c :: replaceNS rest

/-- Embeds `ticker.replace(".NS", "")`. -/
def stripNS (s : String) : String := ⟨replaceNS s.data⟩

/-- Embeds `analyze(ticker)`, lines 43–115 of the script, with the network fetch
abstracted into the `raw` argument: empty fetch → skip; fewer than 120 rows
after `dropna()` → skip; otherwise indicators, flags, score and the
ATR-based risk gate, producing a `Candidate`. -/
def analyze (ticker : String) (raw : List RawBar) : Option Candidate :=
  if raw.isEmpty then none
  else
    let bars := dropna raw
    if bars.length < 120 then none
    else
      let t := bars.length - 1
      let atrT := atrF (trAt bars) t
      some
        { ticker := stripNS ticker
          price := roundTo 2 (closeAt bars t)
          score := scoreOf bars
          rr := (safeDiv (qmul ATR_STOP_MULT atrT) (qmul ATR_TGT_MULT atrT)).map (roundTo 2)
          target := roundTo 2 (qadd (closeAt bars t) (qmul ATR_TGT_MULT atrT))
          stop := roundTo 2 (qsub (closeAt bars t) (qmul ATR_STOP_MULT atrT))
          rsi := (rsiF bars t).map (roundTo 1)
          adx := (adxF bars t).map (roundTo 1)
          volSurge := f_volume_surge bars }

/-! ## Candidate filter & ranker (`main`, lines 117–132) -/

/-- The gate of the loop in `main`: `res["Score"] >= MIN_SCORE and
res["RR"] <= MAX_RR` (an undefined RR fails the comparison). -/
def passGate (c : Candidate) : Bool :=
  decide (MIN_SCORE ≤ c.score) && oLE c.rr MAX_RR

/-- The `picks` list accumulated by `main`'s loop over `(symbol, fetched
rows)` pairs. -/
def picks (data : List (String × List RawBar)) : List Candidate :=
  data.filterMap fun p =>
    match analyze p.1 p.2 with
    | some c => if passGate c then some c else none
    | none => none

/-- ADX comparison used by the descending sort: pandas places NaN keys last
(`na_position='last'`), so an undefined ADX sorts after every defined one. -/
def adxGE (x y : Option ℚ) : Bool :=
  match x, y with
  | _, none => true
  | none, some _ => false
  | some p, some q => decide (q ≤ p)

/-- Models `sort_values(["Score","VolSurge","ADX"], ascending=[False]*3)`: `a` may
be placed no later than `b` iff its key triple is lexicographically ≥,
booleans ordered `True` before `False` and NaN ADX last. -/
def rankGE (a b : Candidate) : Bool :=
  decide (b.score < a.score) ||
    ((a.score == b.score) &&
      ((a.volSurge && !b.volSurge) ||
        ((a.volSurge == b.volSurge) && adxGE a.adx b.adx)))

/-- The three-key descending order as a relation, for sorting. -/
def rankLE (a b : Candidate) : Prop := rankGE a b = true

instance : DecidableRel rankLE := fun a b => instDecidableEqBool (rankGE a b) true

/-- The Shortlist of a run of `main`: gate, stable three-key descending sort
(pandas multi-column `sort_values` is a stable lexicographic sort), then
`head(TOP_N)`. -/
def shortlist (data : List (String × List RawBar)) : List Candidate :=
  (List.insertionSort rankLE (picks data)).take TOP_N

/-! ## The dashboard handler (`streamlit_app.py`, lines 16–31)

Same per-symbol gate (literal thresholds 6 and 0.6), but the displayed frame
is sorted by `["Score", "ADX"]` only and is not truncated. -/

/-- The `picks` list of the dashboard handler. -/
def stPicks (data : List (String × List RawBar)) : List Candidate :=
  data.filterMap fun p =>
    match analyze p.1 p.2 with
    | some c => if decide (6 ≤ c.score) && oLE c.rr (mkRat 3 5) then some c else none
    | none => none

/-- Models `sort_values(["Score","ADX"], ascending=[False, False])` as a relation. -/
def stRankGE (a b : Candidate) : Bool :=
  decide (b.score < a.score) || ((a.score == b.score) && adxGE a.adx b.adx)

/-- The dashboard's two-key descending order as a relation. -/
def stRankLE (a b : Candidate) : Prop := stRankGE a b = true

instance : DecidableRel stRankLE := fun a b => instDecidableEqBool (stRankGE a b) true

/-- The table displayed by the dashboard (no `head(TOP_N)`). -/
def stTable (data : List (String × List RawBar)) : List Candidate :=
  List.insertionSort stRankLE (stPicks data)

/-! ## Concrete series used by witnesses and counterexamples -/

/-- A raw bar with every field present. -/
def mkBar (h l c v : ℚ) : RawBar := ⟨some c, some h, some l, some c, some c, some v⟩

/-- A flat bar: all prices equal (zero true range). -/
def flatBar : RawBar := mkBar 10 10 10 100

/-- A series of 120 flat bars: accepted, every flag decidable, ATR = 0. -/
def flatRaw : List RawBar := List.replicate 120 flatBar

/-- A series of 119 flat bars: one short of the history requirement. -/
def flat119 : List RawBar := List.replicate 119 flatBar

/-- A series of 120 constant bars with a positive daily range, so ATR = 2 > 0. -/
def posRaw : List RawBar := List.replicate 120 (mkBar 11 9 10 100)

/-- A fetch of 120 raw rows of which one (index 50) has a missing volume: 119 complete
rows survive `dropna()`. -/
def gapRaw : List RawBar :=
  (List.range 120).map fun i =>
    if i = 50 then { flatBar with volume' := none } else flatBar

/-- Close prices of a series engineered to pass the gate: two-day oscillation
around 100, a mild five-day slide, then a high-volume breakout bar. -/
def goodClose (i : ℕ) : ℚ :=
  if i < 114 then (if i % 2 = 0 then 100 else 101)
  else if i = 119 then 104
  else mkRat (200 - ((i - 113 : ℕ) : ℤ)) 2

/-- Volumes for the engineered series: flat 100 with a 1000 surge at the end. -/
def goodVol (i : ℕ) : ℚ := if i = 119 then 1000 else 100

/-- The engineered accepted series (high = close + 1, low = close − 1). -/
def goodRaw : List RawBar :=
  (List.range 120).map fun i =>
    mkBar (qadd (goodClose i) 1) (qsub (goodClose i) 1) (goodClose i) (goodVol i)

/-- The candidate `analyze` produces from `flatRaw`: score 2 (EMA cluster and
20-day-high flags), undefined risk:reward and ADX. -/
def flatCand : Candidate := ⟨"Z", 10, 2, none, 10, 10, some 100, none, false⟩

/-- The candidate `analyze` produces from `posRaw`: ATR = 2, RR = 0.5. -/
def posCand : Candidate := ⟨"P", 10, 2, some (mkRat 1 2), 14, 8, some 100, none, false⟩

/-- The candidate `analyze` produces from `goodRaw`: score 7, RR = 0.5. -/
def goodCand : Candidate :=
  ⟨"G", 104, 7, some (mkRat 1 2), mkRat 2721 25, mkRat 5079 50,
    some (mkRat 307 5), some (mkRat 81 10), true⟩

/-! ## Helper lemmas -/

/-- Unfolding of `analyze` (the guard structure of lines 44–51 plus the
returned dict). -/
theorem analyze_eq (tk : String) (raw : List RawBar) :
    analyze tk raw =
      if raw.isEmpty then none
      else if (dropna raw).length < 120 then none
      else
        some
          { ticker := stripNS tk
            price := roundTo 2 (closeAt (dropna raw) ((dropna raw).length - 1))
            score := scoreOf (dropna raw)
            rr := (safeDiv
                (qmul ATR_STOP_MULT (atrF (trAt (dropna raw)) ((dropna raw).length - 1)))
                (qmul ATR_TGT_MULT (atrF (trAt (dropna raw)) ((dropna raw).length - 1)))).map
                  (roundTo 2)
            target := roundTo 2 (qadd (closeAt (dropna raw) ((dropna raw).length - 1))
              (qmul ATR_TGT_MULT (atrF (trAt (dropna raw)) ((dropna raw).length - 1))))
            stop := roundTo 2 (qsub (closeAt (dropna raw) ((dropna raw).length - 1))
              (qmul ATR_STOP_MULT (atrF (trAt (dropna raw)) ((dropna raw).length - 1))))
            rsi := (rsiF (dropna raw) ((dropna raw).length - 1)).map (roundTo 1)
            adx := (adxF (dropna raw) ((dropna raw).length - 1)).map (roundTo 1)
            volSurge := f_volume_surge (dropna raw) } := rfl

/-- Inversion: a produced candidate comes from an accepted series and is
exactly the record built from its cleaned bars. -/
theorem analyze_some_inv {tk : String} {raw : List RawBar} {c : Candidate}
    (h : analyze tk raw = some c) :
    120 ≤ (dropna raw).length ∧
      c.score = scoreOf (dropna raw) ∧
      c.rr = (safeDiv
        (qmul ATR_STOP_MULT (atrF (trAt (dropna raw)) ((dropna raw).length - 1)))
        (qmul ATR_TGT_MULT (atrF (trAt (dropna raw)) ((dropna raw).length - 1)))).map
          (roundTo 2) := by
  rw [analyze_eq] at h
  split at h
  · exact absurd h (by simp)
  · split at h
    · exact absurd h (by simp)
    · refine ⟨by omega, ?_, ?_⟩ <;> · rw [Option.some.injEq] at h; cases h; rfl

/-- Candidates in `picks` passed the gate. -/
theorem mem_picks_passGate {data : List (String × List RawBar)} {c : Candidate}
    (h : c ∈ picks data) : passGate c = true := by
  rw [picks, List.mem_filterMap] at h
  obtain ⟨p, -, hp⟩ := h
  cases han : analyze p.1 p.2 with
  | none => rw [han] at hp; cases hp
  | some c' =>
    rw [han] at hp
    dsimp only at hp
    split at hp
    · cases hp; assumption
    · cases hp

/-- Candidates in the Shortlist are picks. -/
theorem mem_shortlist_mem_picks {data : List (String × List RawBar)} {c : Candidate}
    (h : c ∈ shortlist data) : c ∈ picks data := by
  rw [shortlist] at h
  exact (List.perm_insertionSort rankLE (picks data)).mem_iff.mp
    ((List.take_sublist _ _).mem h)

/-- Candidates in the dashboard's picks passed the (identical) gate. -/
theorem mem_stPicks_passGate {data : List (String × List RawBar)} {c : Candidate}
    (h : c ∈ stPicks data) : (decide (6 ≤ c.score) && oLE c.rr (mkRat 3 5)) = true := by
  rw [stPicks, List.mem_filterMap] at h
  obtain ⟨p, -, hp⟩ := h
  cases han : analyze p.1 p.2 with
  | none => rw [han] at hp; cases hp
  | some c' =>
    rw [han] at hp
    dsimp only at hp
    split at hp
    · cases hp; assumption
    · cases hp

/-- Candidates in the dashboard table are dashboard picks. -/
theorem mem_stTable_mem_stPicks {data : List (String × List RawBar)} {c : Candidate}
    (h : c ∈ stTable data) : c ∈ stPicks data :=
  (List.perm_insertionSort stRankLE (stPicks data)).mem_iff.mp (by rwa [stTable] at h)

/-- The comparison `adxGE` is total. -/
theorem adxGE_total (x y : Option ℚ) : adxGE x y = true ∨ adxGE y x = true := by
  cases x <;> cases y <;> simp [adxGE]
  exact le_total _ _

/-- The comparison `adxGE` is transitive. -/
theorem adxGE_trans {x y z : Option ℚ} (h1 : adxGE x y = true) (h2 : adxGE y z = true) :
    adxGE x z = true := by
  cases x <;> cases y <;> cases z <;> simp_all [adxGE]
  exact le_trans h2 h1

instance rankLE_isTotal : IsTotal Candidate rankLE where
  total a b := by
    rw [rankLE, rankLE, rankGE, rankGE]
    rcases Nat.lt_trichotomy a.score b.score with hs | hs | hs
    · right; simp [hs]
    · rcases adxGE_total a.adx b.adx with ha | ha
      · cases hv1 : a.volSurge <;> cases hv2 : b.volSurge <;>
          simp [hs, hv1, hv2, ha]
      · cases hv1 : a.volSurge <;> cases hv2 : b.volSurge <;>
          simp [hs, hv1, hv2, ha]
    · left; simp [hs]

instance rankLE_isTrans : IsTrans Candidate rankLE where
  trans a b c h1 h2 := by
    rw [rankLE, rankGE] at h1 h2 ⊢
    simp only [Bool.or_eq_true, Bool.and_eq_true, decide_eq_true_eq, beq_iff_eq,
      Bool.not_eq_true'] at h1 h2 ⊢
    rcases h1 with h1 | ⟨hs1, h1⟩
    · rcases h2 with h2 | ⟨hs2, h2⟩
      · left; omega
      · left; omega
    · rcases h2 with h2 | ⟨hs2, h2⟩
      · left; omega
      · right
        refine ⟨by omega, ?_⟩
        rcases h1 with ⟨hv1, hv1'⟩ | ⟨hv1, ha1⟩
        · rcases h2 with ⟨hv2, hv2'⟩ | ⟨hv2, ha2⟩
          · left; exact ⟨hv1, hv2'⟩
          · left; exact ⟨hv1, by rw [← hv2, hv1']⟩
        · rcases h2 with ⟨hv2, hv2'⟩ | ⟨hv2, ha2⟩
          · left; exact ⟨by rw [hv1, hv2], hv2'⟩
          · right; exact ⟨by rw [hv1, hv2], adxGE_trans ha1 ha2⟩

/-- For Bool lists, true-count plus false-count is the length. -/
theorem count_true_add_count_false (l : List Bool) :
    l.count true + l.count false = l.length := by
  induction l with
  | nil => rfl
  | cons b l ih => cases b <;> simp [List.count_cons, ih] <;> omega

/-- Bollinger width is undefined during the 19-bar band warm-up. -/
theorem bbWidth_none_early (bars : List Bar) (i : ℕ) (h : i + 1 < 20) :
    bbWidthF bars i = none := by
  simp [bbWidthF, bbMavgF, bbStdF, bbVarF, rollMeanF, h]

/-! ## The claims -/

/-- C1: for every OHLCV series accepted by the pipeline, the composite score
returned by `analyze` equals the count of TRUE values among the 10 boolean
flags of §4.2 (with the RSI neutral band counted as one of the ten, no other
weight), and is therefore an integer in [0,10]. -/
theorem C1_score_is_flag_count (tk : String) (raw : List RawBar) (c : Candidate)
    (h : analyze tk raw = some c) :
    c.score = (signalFlags (dropna raw)).count true ∧ c.score ≤ 10 := by
  obtain ⟨-, hscore, -⟩ := analyze_some_inv h
  refine ⟨hscore, ?_⟩
  rw [hscore]
  simp only [scoreOf]
  calc (signalFlags (dropna raw)).count true ≤ (signalFlags (dropna raw)).length :=
        List.count_le_length _ _
    _ = 10 := rfl

/-- Witness for C1 at the engineered 120-bar series: its score, 7, is the
count of true flags and lies in [0,10]. -/
theorem C1_score_is_flag_count_witness :
    goodCand.score = (signalFlags (dropna goodRaw)).count true ∧ goodCand.score ≤ 10 :=
  C1_score_is_flag_count "G" goodRaw goodCand (by decide)

/-- C4: a series with fewer than 120 cleaned bars is skipped (`analyze`
returns `none` before any indicator is computed); 119 flat bars are skipped
while an accepted 120-bar series yields a Candidate. -/
theorem C4_short_series_skipped :
    (∀ (tk : String) (raw : List RawBar), (dropna raw).length < 120 → analyze tk raw = none) ∧
      analyze "A" flat119 = none ∧ (analyze "A" goodRaw).isSome = true := by
  refine ⟨fun tk raw h => ?_, by decide, by decide⟩
  rw [analyze_eq, if_pos h]
  split <;> rfl

/-- Witness for C4: the 119-bar flat series is one bar short and is skipped. -/
theorem C4_short_series_skipped_witness :
    (dropna flat119).length < 120 ∧ analyze "B" flat119 = none :=
  ⟨by decide, C4_short_series_skipped.1 "B" flat119 (by decide)⟩

/-- C10: the 120-bar minimum is measured after rows with a missing value are
dropped: a fetch with 120 raw rows but fewer than 120 complete rows is
skipped, and an empty fetch is a skip, never an error. -/
theorem C10_minimum_counts_cleaned_rows :
    (∀ (tk : String) (raw : List RawBar), 120 ≤ raw.length →
        (dropna raw).length < 120 → analyze tk raw = none) ∧
      ∀ tk : String, analyze tk [] = none := by
  refine ⟨fun tk raw _ h => ?_, fun tk => rfl⟩
  rw [analyze_eq, if_pos h]
  split <;> rfl

/-- Witness for C10: 120 raw rows, one with a missing volume, leave 119
complete rows and the symbol is skipped. -/
theorem C10_minimum_counts_cleaned_rows_witness :
    120 ≤ gapRaw.length ∧ (dropna gapRaw).length < 120 ∧ analyze "C" gapRaw = none :=
  ⟨by decide, by decide, C10_minimum_counts_cleaned_rows.1 "C" gapRaw (by decide) (by decide)⟩

/-- C7: when the last-bar close equals the 20-period EMA exactly, the
`close_above_ema20` flag is false, because the flag is a strict inequality. -/
theorem C7_close_eq_ema20_flag_false (bars : List Bar)
    (h : emaF 20 (closeAt bars) (bars.length - 1)
      = some (closeAt bars (bars.length - 1))) :
    f_close_above_ema20 bars = false := by
  simp [f_close_above_ema20, h, oGT, lt_irrefl]

/-- Witness for C7: on the flat series the last close equals EMA20 exactly
and the flag is false. -/
theorem C7_close_eq_ema20_flag_false_witness :
    emaF 20 (closeAt (dropna flatRaw)) ((dropna flatRaw).length - 1)
        = some (closeAt (dropna flatRaw) ((dropna flatRaw).length - 1)) ∧
      f_close_above_ema20 (dropna flatRaw) = false :=
  ⟨by decide, C7_close_eq_ema20_flag_false (dropna flatRaw) (by decide)⟩

/-- C6 counterexample: with the latest ATR equal to zero, `analyze` does not
raise any error: it returns normally, a defined Candidate whose risk:reward
is the undefined value.  (The `0.0/0.0` is a numpy float division which
yields NaN under the script's suppressed warnings, not a Python
`ZeroDivisionError`.) -/
theorem C6_counterexample :
    analyze "Z" flatRaw = some flatCand ∧ flatCand.rr = none :=
  ⟨by decide, rfl⟩

/-- C6 (amended): with ATR[t] = 0 on an accepted series, the risk:reward
division yields an undefined (NaN) value rather than raising; `analyze`
still returns a Candidate, whose `rr` is undefined. -/
theorem C6_zero_atr_no_error (tk : String) (raw : List RawBar)
    (h120 : 120 ≤ (dropna raw).length)
    (hatr : atrF (trAt (dropna raw)) ((dropna raw).length - 1) = 0) :
    (analyze tk raw).map Candidate.rr = some none := by
  have hne : raw.isEmpty = false := by
    cases raw with
    | nil => simp [dropna] at h120
    | cons a l => rfl
  rw [analyze_eq tk raw, if_neg (by simp [hne]), if_neg (by omega)]
  simp only [Option.map_some']
  rw [hatr]
  have hz : qmul ATR_TGT_MULT 0 = 0 := by rw [qmul_eq, mul_zero]
  rw [hz]
  simp [safeDiv]

/-- Witness for the amended C6 at the flat series. -/
theorem C6_zero_atr_no_error_witness :
    (analyze "W" flatRaw).map Candidate.rr = some none :=
  C6_zero_atr_no_error "W" flatRaw (by decide) (by decide)

/-- C9: with ATR[t] = 0, the produced Candidate has an undefined risk:reward,
the gate comparison `rr ≤ MAX_RR` is false for it, and it never appears in
any run's Shortlist — zero-ATR symbols are silently excluded, not errors. -/
theorem C9_zero_atr_excluded (tk : String) (raw : List RawBar) (c : Candidate)
    (h : analyze tk raw = some c)
    (hatr : atrF (trAt (dropna raw)) ((dropna raw).length - 1) = 0) :
    c.rr = none ∧ oLE c.rr MAX_RR = false ∧ ∀ data, c ∉ shortlist data := by
  obtain ⟨-, -, hrr⟩ := analyze_some_inv h
  have hz : qmul ATR_TGT_MULT (atrF (trAt (dropna raw)) ((dropna raw).length - 1)) = 0 := by
    rw [hatr, qmul_eq, mul_zero]
  have hnone : c.rr = none := by rw [hrr, hz]; simp [safeDiv]
  refine ⟨hnone, by rw [hnone]; rfl, ?_⟩
  intro data hmem
  have hp := mem_picks_passGate (mem_shortlist_mem_picks hmem)
  rw [passGate, hnone] at hp
  simp [oLE] at hp

/-- Witness for C9 at the flat series and a one-symbol run. -/
theorem C9_zero_atr_excluded_witness :
    flatCand.rr = none ∧ oLE flatCand.rr MAX_RR = false ∧
      flatCand ∉ shortlist [("Z", flatRaw)] := by
  have h := C9_zero_atr_excluded "Z" flatRaw flatCand (by decide) (by decide)
  exact ⟨h.1, h.2.1, h.2.2 _⟩

/-- C5: whenever the latest ATR is positive, the risk:reward of the produced
Candidate equals exactly `atr_stop_multiplier / atr_target_multiplier`, the
constant one half (which 2-decimal rounding fixes), independent of the price
level and of the magnitude of ATR. -/
theorem C5_rr_constant (tk : String) (raw : List RawBar) (c : Candidate)
    (h : analyze tk raw = some c)
    (hatr : 0 < atrF (trAt (dropna raw)) ((dropna raw).length - 1)) :
    c.rr = some (roundTo 2 (ATR_STOP_MULT / ATR_TGT_MULT)) ∧ c.rr = some (mkRat 1 2) := by
  obtain ⟨-, -, hrr⟩ := analyze_some_inv h
  set a := atrF (trAt (dropna raw)) ((dropna raw).length - 1) with ha
  have hhalf : (mkRat 1 2 : ℚ) = 1 / 2 := by
    norm_num [Rat.mkRat_eq_divInt, Rat.divInt_eq_div]
  have h2 : qmul ATR_TGT_MULT a ≠ 0 := by
    rw [qmul_eq]
    have h2' : (ATR_TGT_MULT : ℚ) = 2 := rfl
    rw [h2']
    positivity
  have hdiv : qdiv (qmul ATR_STOP_MULT a) (qmul ATR_TGT_MULT a) = mkRat 1 2 := by
    rw [qdiv_eq, qmul_eq, qmul_eq, hhalf]
    have h1' : (ATR_STOP_MULT : ℚ) = 1 := rfl
    have h2' : (ATR_TGT_MULT : ℚ) = 2 := rfl
    rw [h1', h2']
    have hane : a ≠ 0 := ne_of_gt hatr
    field_simp
    ring
  have hround : roundTo 2 (mkRat 1 2) = mkRat 1 2 := by decide
  have hmain : c.rr = some (mkRat 1 2) := by
    rw [hrr]
    simp only [safeDiv]
    rw [if_neg h2, Option.map_some', hdiv, hround]
  refine ⟨?_, hmain⟩
  have hconst : (ATR_STOP_MULT / ATR_TGT_MULT : ℚ) = mkRat 1 2 := by
    rw [hhalf]
    norm_num [ATR_STOP_MULT, ATR_TGT_MULT]
  rw [hconst, hround]
  exact hmain

/-- Witness for C5 at the constant-range series (ATR = 2 > 0, RR = 0.5). -/
theorem C5_rr_constant_witness :
    0 < atrF (trAt (dropna posRaw)) ((dropna posRaw).length - 1) ∧
      posCand.rr = some (roundTo 2 (ATR_STOP_MULT / ATR_TGT_MULT)) ∧
      posCand.rr = some (mkRat 1 2) :=
  ⟨by decide, C5_rr_constant "P" posRaw posCand (by decide) (by decide)⟩

/-- C8: on an accepted series shorter than 139 cleaned bars the
`bb_squeeze_breakout` flag is false — the 120-bar rolling mean of the
Bollinger width is undefined at the latest index because the width itself
has a 19-bar warm-up — so the score can be at most 9. -/
theorem C8_bb_flag_needs_139 (tk : String) (raw : List RawBar) (c : Candidate)
    (h : analyze tk raw = some c) (hlen : (dropna raw).length < 139) :
    f_bb_squeeze_break (dropna raw) = false ∧ c.score ≤ 9 := by
  obtain ⟨h120, hscore, -⟩ := analyze_some_inv h
  have hwidth : bbWidthF (dropna raw) ((dropna raw).length - 1 + 1 - 120 + 0) = none := by
    apply bbWidth_none_early
    omega
  have hall : ((List.range 120).all fun k =>
      (bbWidthF (dropna raw) ((dropna raw).length - 1 + 1 - 120 + k)).isSome) = false := by
    by_contra hcon
    rw [Bool.not_eq_false] at hcon
    have h0 := List.all_eq_true.mp hcon 0 (by simp)
    rw [hwidth] at h0
    exact absurd h0 (by simp)
  have hroll : rollMeanOptF 120 (bbWidthF (dropna raw)) ((dropna raw).length - 1) = none := by
    have hcond : ¬ (((List.range 120).all fun k =>
        (bbWidthF (dropna raw) ((dropna raw).length - 1 + 1 - 120 + k)).isSome) = true) := by
      rw [hall]
      simp
    simp only [rollMeanOptF]
    rw [if_neg (by omega), if_neg hcond]
  have hflag : f_bb_squeeze_break (dropna raw) = false := by
    simp only [f_bb_squeeze_break]
    rw [hroll]
    cases bbWidthF (dropna raw) ((dropna raw).length - 1) <;> rfl
  refine ⟨hflag, ?_⟩
  rw [hscore]
  simp only [scoreOf]
  have hmem : false ∈ signalFlags (dropna raw) := by
    simp only [signalFlags]
    rw [hflag]
    simp
  have hcnt := count_true_add_count_false (signalFlags (dropna raw))
  have hlen10 : (signalFlags (dropna raw)).length = 10 := rfl
  have hfpos : 0 < (signalFlags (dropna raw)).count false := List.count_pos_iff.mpr hmem
  omega

/-- Witness for C8 at the flat 120-bar series: flag false, score at most 9. -/
theorem C8_bb_flag_needs_139_witness :
    (dropna flatRaw).length < 139 ∧ f_bb_squeeze_break (dropna flatRaw) = false ∧
      flatCand.score ≤ 9 := by
  have h := C8_bb_flag_needs_139 "Z" flatRaw flatCand (by decide) (by decide)
  exact ⟨by decide, h.1, h.2⟩

/-- C2: every Candidate in a run's Shortlist — of the CLI ranker and likewise
of the dashboard handler's table — satisfies score ≥ MIN_SCORE (6) and a true
`rr ≤ MAX_RR` (0.6) comparison; no candidate failing either gate appears. -/
theorem C2_shortlist_gate :
    (∀ (data : List (String × List RawBar)) (c : Candidate), c ∈ shortlist data →
        MIN_SCORE ≤ c.score ∧ oLE c.rr MAX_RR = true) ∧
      (∀ (data : List (String × List RawBar)) (c : Candidate), c ∈ stTable data →
        MIN_SCORE ≤ c.score ∧ oLE c.rr MAX_RR = true) := by
  constructor
  · intro data c h
    have hp := mem_picks_passGate (mem_shortlist_mem_picks h)
    rw [passGate, Bool.and_eq_true, decide_eq_true_eq] at hp
    exact hp
  · intro data c h
    have hp := mem_stPicks_passGate (mem_stTable_mem_stPicks h)
    rw [Bool.and_eq_true, decide_eq_true_eq] at hp
    exact hp

/-- Witness for C2: a one-symbol run whose candidate (score 7, RR 0.5)
reaches the Shortlist and satisfies both gates. -/
theorem C2_shortlist_gate_witness :
    goodCand ∈ shortlist [("G", goodRaw)] ∧ MIN_SCORE ≤ goodCand.score ∧
      oLE goodCand.rr MAX_RR = true := by
  have hm : goodCand ∈ shortlist [("G", goodRaw)] := by decide
  exact ⟨hm, C2_shortlist_gate.1 [("G", goodRaw)] goodCand hm⟩

/-- C3 counterexample: a (dashboard) run on six symbols whose fetches all
return the engineered passing series displays a table of six candidates —
the claim's `length ≤ top_n` bound fails for that run, because the dashboard
handler applies no `head(TOP_N)` truncation (and sorts by two keys only). -/
theorem C3_counterexample :
    TOP_N < (stTable (List.replicate 6 ("G", goodRaw))).length := by decide

/-- C3 (amended): for every run of the CLI pipeline (`main`), the Shortlist
has length at most `top_n` and is sorted in the three-key descending order:
for adjacent `a, b`, either `a.score > b.score`, or scores tie and
`a.volume_surge ≥ b.volume_surge`, or both tie and the ADX of `a` is at
least that of `b` (an undefined ADX ordering last).  The dashboard handler's
table is not truncated and is outside this statement. -/
theorem C3_shortlist_sorted (data : List (String × List RawBar)) :
    (shortlist data).length ≤ TOP_N ∧
      (shortlist data).Chain' (fun a b =>
        b.score < a.score ∨
          (a.score = b.score ∧ (b.volSurge = true → a.volSurge = true)) ∨
          (a.score = b.score ∧ a.volSurge = b.volSurge ∧ adxGE a.adx b.adx = true)) := by
  constructor
  · simp only [shortlist]
    rw [List.length_take]
    exact min_le_left _ _
  · have hs : List.Sorted rankLE (List.insertionSort rankLE (picks data)) :=
      List.sorted_insertionSort rankLE (picks data)
    have hp : ((List.insertionSort rankLE (picks data)).take TOP_N).Pairwise rankLE :=
      List.Pairwise.sublist (List.take_sublist _ _) hs
    rw [shortlist]
    refine (List.Pairwise.chain' hp).imp ?_
    intro a b hab
    rw [rankLE] at hab
    simp only [rankGE, Bool.or_eq_true, Bool.and_eq_true, decide_eq_true_eq, beq_iff_eq,
      Bool.not_eq_true'] at hab
    rcases hab with h | ⟨hsc, h⟩
    · exact Or.inl h
    · rcases h with ⟨hv, hv'⟩ | ⟨hv, ha⟩
      · exact Or.inr (Or.inl ⟨hsc, fun _ => hv⟩)
      · exact Or.inr (Or.inr ⟨hsc, hv, ha⟩)

end NSE

